import Mathlib

/-!
Verification of the focksup-library core (WAConnection / FocksupClient /
Auth / Utils / WAProtocol) against its natural-language specification.

JavaScript strings are modelled as lists of characters (`Str`), JS `Map`s
as association lists with replace-on-set semantics, and promises as an
explicit settlement status (`FutureSt`).  Randomness (`Math.random()`)
enters as an explicit draw parameter: `Math.floor(Math.random() * 1000000)`
is an arbitrary natural number below 1000000.
-/

namespace Focksup

/-- JS strings as character lists. -/
abbrev Str := List Char

/-- `AuthenticationCredentials` from Types.ts: three required string fields
and three optional ones. -/
structure AuthenticationCredentials where
  publicKey : Str
  privateKey : Str
  serverPublicKey : Str
  qrCode : Option Str := none
  pairingCode : Option Str := none
  session : Option Str := none
deriving DecidableEq, Repr

/-! ## WAProtocol.generateMessageTag (tag generation, claim C4)

Source: `Math.floor(Math.random() * 1000000).toString()`.
The random draw is modelled as the resulting integer in `[0, 1000000)`;
`toString` is decimal digit rendering, written with explicit fuel so that
it reduces in the kernel. -/

/-- The character for a single decimal digit `n < 10`. -/
def digitChar (n : Nat) : Char := Char.ofNat (48 + n)

/-- Decimal digits of `n`, most significant first; `fuel` bounds recursion
depth (any `fuel > n` is enough). -/
def natDigitsAux : Nat → Nat → List Char
  | 0, _ => []
  | fuel + 1, n =>
    if n < 10 then [digitChar n]
    else natDigitsAux fuel (n / 10) ++ [digitChar (n % 10)]

/-- Decimal rendering of a natural number (JS `Number.prototype.toString`). -/
def natDigits (n : Nat) : List Char := natDigitsAux (n + 1) n

/-- `generateMessageTag` (WAProtocol.ts): the decimal string of a random
integer below 1000000. -/
def generateMessageTag (draw : Fin 1000000) : Str := natDigits draw.val

/-- `sendRequest`s tag assignment: `request.tag || generateMessageTag()`.
JS `||` falls through on the empty string as well as on a missing field. -/
def assignedTag (requestTag : Option Str) (draw : Fin 1000000) : Str :=
  match requestTag with
  | some t => if t = [] then generateMessageTag draw else t
  | none => generateMessageTag draw

/-! ## Utils.validatePhoneNumber (claim C10) -/

/-- `validatePhoneNumber` (Utils.ts): strip non-digits, replace a leading
`0` by `62`, prepend `62` when at most 10 digits remain, append `@c.us`. -/
def validatePhoneNumber (phoneNumber : Str) : Str :=
  let cleaned := phoneNumber.filter Char.isDigit
  let cleaned :=
    if cleaned.head? = some '0' then '6' :: '2' :: cleaned.drop 1 else cleaned
  let cleaned :=
    if cleaned.length ≤ 10 then '6' :: '2' :: cleaned else cleaned
  cleaned ++ "@c.us".toList

/-- The transformation exactly as claim C10 words it: `d` is the digit
string of the input, a leading `0` is replaced by `62`, then `62` is
prepended when the digit string has length at most 10, and `@c.us` is
appended. -/
def claimedValidatePhoneNumber (input : Str) : Str :=
  let d0 := input.filter Char.isDigit
  let d1 := if d0.head? = some '0' then "62".toList ++ d0.drop 1 else d0
  let d2 := if d1.length ≤ 10 then "62".toList ++ d1 else d1
  d2 ++ "@c.us".toList

/-! ## Auth.ts: credential storage (claim C9)

`formatCredentialsForStorage` is `JSON.stringify(credentials)` and
`parseCredentialsFromStorage` is `JSON.parse(storedCredentials)`.
`JSON.stringify` renders the `AuthenticationCredentials` record with its
fields in declaration order, omitting absent optional fields, escaping
string contents; `JSON.parse` is modelled on the strings `stringify`
produces: a parser for exactly that object layout. -/

/-- JSON string escaping of one character (the escapes `JSON.stringify`
uses for the characters this codec distinguishes; other characters are
emitted verbatim). -/
def escapeChar (c : Char) : List Char :=
  if c = '"' then ['\\', '"']
  else if c = '\\' then ['\\', '\\']
  else if c = '\n' then ['\\', 'n']
  else if c = '\t' then ['\\', 't']
  else if c = '\r' then ['\\', 'r']
  else [c]

/-- JSON string escaping of a string body. -/
def escapeStr : Str → Str
  | [] => []
  | c :: rest => escapeChar c ++ escapeStr rest

/-- Inverse of `escapeChar` on the character after a backslash. -/
def unescapeChar (c : Char) : Option Char :=
  if c = '"' then some '"'
  else if c = '\\' then some '\\'
  else if c = 'n' then some '\n'
  else if c = 't' then some '\t'
  else if c = 'r' then some '\r'
  else none

/-- Scan a JSON string body; the flag records that the previous character
was an unconsumed backslash. -/
def parseQuotedAux : Bool → Str → Option (Str × Str)
  | _, [] => none
  | true, e :: rest =>
    match unescapeChar e with
    | none => none
    | some u =>
      match parseQuotedAux false rest with
      | none => none
      | some (s, r) => some (u :: s, r)
  | false, c :: rest =>
    if c = '"' then some ([], rest)
    else if c = '\\' then parseQuotedAux true rest
    else
      match parseQuotedAux false rest with
      | none => none
      | some (s, r) => some (c :: s, r)

/-- Parse a JSON string body up to its closing quote; returns the decoded
content and the remainder after the quote. -/
def parseQuoted (s : Str) : Option (Str × Str) := parseQuotedAux false s

/-- One serialized string field: `"name":"value"` with the value escaped. -/
def jsonStrField (name value : Str) : Str :=
  '"' :: name ++ '"' :: ':' :: '"' :: escapeStr value ++ ['"']

/-- A serialized optional field, preceded by its comma when present;
`JSON.stringify` omits fields holding `undefined`. -/
def jsonOptField (name : Str) (value : Option Str) : Str :=
  match value with
  | none => []
  | some v => ',' :: jsonStrField name v

/-- `formatCredentialsForStorage` (Auth.ts): `JSON.stringify(credentials)`
on the `AuthenticationCredentials` record. -/
def formatCredentialsForStorage (c : AuthenticationCredentials) : Str :=
  '{' :: jsonStrField "publicKey".toList c.publicKey
    ++ ',' :: jsonStrField "privateKey".toList c.privateKey
    ++ ',' :: jsonStrField "serverPublicKey".toList c.serverPublicKey
    ++ jsonOptField "qrCode".toList c.qrCode
    ++ jsonOptField "pairingCode".toList c.pairingCode
    ++ jsonOptField "session".toList c.session
    ++ ['}']

/-- Consume an expected literal prefix. -/
def expectLit (lit s : Str) : Option Str :=
  if lit.isPrefixOf s then some (s.drop lit.length) else none

/-- Parse `"name":"value"`, returning the decoded value and remainder. -/
def parseField (name : Str) (s : Str) : Option (Str × Str) :=
  match expectLit ('"' :: name ++ ['"', ':', '"']) s with
  | none => none
  | some rest => parseQuoted rest

/-- Parse an optional `,"name":"value"` if the input starts with exactly
that field, otherwise leave the input untouched. -/
def parseOptField (name : Str) (s : Str) : Option (Option Str × Str) :=
  match s with
  | ',' :: rest =>
    if ('"' :: name ++ ['"', ':', '"']).isPrefixOf rest then
      match parseField name rest with
      | none => none
      | some (v, r) => some (some v, r)
    else some (none, s)
  | _ => some (none, s)

/-- `parseCredentialsFromStorage` (Auth.ts): `JSON.parse`, modelled on the
object layout `formatCredentialsForStorage` emits. -/
def parseCredentialsFromStorage (s : Str) : Option AuthenticationCredentials :=
  match s with
  | '{' :: rest =>
    match parseField "publicKey".toList rest with
    | none => none
    | some (pk, r1) =>
      match expectLit [','] r1 with
      | none => none
      | some r1' =>
        match parseField "privateKey".toList r1' with
        | none => none
        | some (sk, r2) =>
          match expectLit [','] r2 with
          | none => none
          | some r2' =>
            match parseField "serverPublicKey".toList r2' with
            | none => none
            | some (spk, r3) =>
              match parseOptField "qrCode".toList r3 with
              | none => none
              | some (qr, r4) =>
                match parseOptField "pairingCode".toList r4 with
                | none => none
                | some (pc, r5) =>
                  match parseOptField "session".toList r5 with
                  | none => none
                  | some (ss, r6) =>
                    match r6 with
                    | ['}'] => some ⟨pk, sk, spk, qr, pc, ss⟩
                    | _ => none
  | _ => none

/-! ## Association lists: the JS `Map` and plain-object operations

`msgRetryCache` is a JS `Map`: `set` replaces an existing binding in
place, `delete` removes the binding, `has`/`get` look up. -/

/-- `Map.get` / object property read. -/
def alookup {α β : Type} [DecidableEq α] : List (α × β) → α → Option β
  | [], _ => none
  | (k, v) :: rest, key => if k = key then some v else alookup rest key

/-- `Map.set` / object property write: replace in place, else append. -/
def aset {α β : Type} [DecidableEq α] : List (α × β) → α → β → List (α × β)
  | [], key, v => [(key, v)]
  | (k, w) :: rest, key, v =>
    if k = key then (k, v) :: rest else (k, w) :: aset rest key v

/-- `Map.delete`: remove the binding of a key. -/
def adelete {α β : Type} [DecidableEq α] (l : List (α × β)) (key : α) :
    List (α × β) :=
  l.filter (fun kv => decide (kv.1 ≠ key))

/-! ## JSON values and WAProtocol.parseMessageNode -/

/-- Untyped JS/JSON values as the inbound payloads carry them. -/
inductive Json where
  | null
  | bool (b : Bool)
  | num (n : Int)
  | str (s : Str)
  | arr (elems : List Json)
  | obj (fields : List (Str × Json))

/-- Property access `j.name`; a missing property reads as the absent value
(JS `undefined`, collapsed with `null` here — both are falsy). -/
def Json.get : Json → Str → Json
  | .obj fields, name =>
    match alookup fields name with
    | some v => v
    | none => .null
  | _, _ => .null

/-- JS truthiness of a value. -/
def Json.truthy : Json → Bool
  | .null => false
  | .bool b => b
  | .num n => decide (n ≠ 0)
  | .str s => decide (s ≠ [])
  | .arr _ => true
  | .obj _ => true

/-- JS `a || b`. -/
def jor (a b : Json) : Json := if a.truthy then a else b

/-- Property assignment `j.name = v`. -/
def Json.setF : Json → Str → Json → Json
  | .obj fields, name, v => .obj (aset fields name v)
  | j, _, _ => j

/-- `parseWhatsAppMessage` (WAProtocol.ts): extract the common header
fields, then the first matching content kind. -/
def parseWhatsAppMessage (message : Json) : Json :=
  let key := message.get "key".toList
  let result := Json.obj
    [("id".toList, jor (message.get "id".toList) (key.get "id".toList)),
     ("from".toList, jor (message.get "from".toList) (key.get "remoteJid".toList)),
     ("fromMe".toList,
       jor (jor (message.get "fromMe".toList) (key.get "fromMe".toList)) (.bool false)),
     ("timestamp".toList,
       jor (message.get "timestamp".toList) (message.get "messageTimestamp".toList)),
     ("type".toList, .str "unknown".toList)]
  let msg := message.get "message".toList
  if (msg.get "conversation".toList).truthy then
    (result.setF "type".toList (.str "text".toList)).setF
      "body".toList (msg.get "conversation".toList)
  else if (msg.get "imageMessage".toList).truthy then
    let im := msg.get "imageMessage".toList
    (((result.setF "type".toList (.str "image".toList)).setF
      "caption".toList (im.get "caption".toList)).setF
      "mimetype".toList (im.get "mimetype".toList)).setF
      "url".toList (im.get "url".toList)
  else if (msg.get "videoMessage".toList).truthy then
    let vm := msg.get "videoMessage".toList
    (((result.setF "type".toList (.str "video".toList)).setF
      "caption".toList (vm.get "caption".toList)).setF
      "mimetype".toList (vm.get "mimetype".toList)).setF
      "url".toList (vm.get "url".toList)
  else if (msg.get "documentMessage".toList).truthy then
    let dm := msg.get "documentMessage".toList
    (((result.setF "type".toList (.str "document".toList)).setF
      "filename".toList (dm.get "fileName".toList)).setF
      "mimetype".toList (dm.get "mimetype".toList)).setF
      "url".toList (dm.get "url".toList)
  else if (msg.get "audioMessage".toList).truthy then
    let am := msg.get "audioMessage".toList
    ((result.setF "type".toList (.str "audio".toList)).setF
      "mimetype".toList (am.get "mimetype".toList)).setF
      "url".toList (am.get "url".toList)
  else if (msg.get "stickerMessage".toList).truthy then
    let sm := msg.get "stickerMessage".toList
    ((result.setF "type".toList (.str "sticker".toList)).setF
      "mimetype".toList (sm.get "mimetype".toList)).setF
      "url".toList (sm.get "url".toList)
  else result

/-- `parseMessageNode` (WAProtocol.ts). -/
def parseMessageNode (node : Json) : Json :=
  if ¬ node.truthy then .null
  else if (node.get "message".toList).truthy then parseWhatsAppMessage node
  else node

/-! ## WAConnection state machine -/

/-- The `authState` field of `WAConnection`. -/
inductive AuthState where
  | disconnected
  | connecting
  | authenticating
  | connected
deriving DecidableEq, Repr

/-- The errors `WAConnection` constructs (each corresponds to one
`new Error(...)` site in the source). -/
inductive WAErr where
  | connectionExists
  | wsNotOpen
  | wrongStateForAuthRequest
  | notInAuthState
  | requestTimedOut (tag : Str)
  | serverError (msg : Str)
  | closedDuringAuth (code : Nat) (reason : Str)
deriving DecidableEq, Repr

/-- Settlement status of a promise. -/
inductive FutureSt (α : Type) where
  | pending
  | resolved (v : α)
  | rejected (e : WAErr)

/-- Partial credential fields carried by an `auth_success` push
(`message.credentials`, spread over the stored bundle). -/
structure CredPatch where
  publicKey : Option Str := none
  privateKey : Option Str := none
  serverPublicKey : Option Str := none
  qrCode : Option Str := none
  pairingCode : Option Str := none
  session : Option Str := none
deriving DecidableEq, Repr

/-- An inbound or outbound envelope `{ tag?, type, data?, error?, ... }`. -/
structure Envelope where
  tag : Option Str := none
  type : Str := []
  data : Json := .null
  error : Option Str := none
  credentials : Option CredPatch := none

/-- Events a `WAConnection` emits. -/
inductive WAEvent where
  | opened
  | closed (code : Nat) (reason : Str)
  | message (m : Json)
  | presenceUpdate (d : Json)
  | groupUpdate (d : Json)
  | messageRevoke (d : Json)
  | messageCreate (d : Json)

/-- In-flight asynchronous operation of `WAConnection` (the code position
between an `await` and the assignments that follow it). -/
inductive FlightKind where
  | resume
  | qrReq
  | pairReq
deriving DecidableEq, Repr

/-- The mutable state of a `WAConnection`, with explicit bookkeeping for
promises (`reqFutures`, `authFuture`), armed request timers (`timers`) and
payloads handed to `ws.send` (`sent`). -/
structure ConnState where
  ws : Option Bool := none
  authState : AuthState := .disconnected
  credentials : Option AuthenticationCredentials := none
  authFuture : Option (FutureSt Unit) := none
  cache : List (Str × Nat) := []
  reqFutures : List (Nat × FutureSt Envelope) := []
  timers : List (Nat × Str) := []
  nextReqId : Nat := 0
  keepAlive : Bool := false
  inFlight : Option FlightKind := none
  sent : List Envelope := []

/-- `{...this.credentials, ...message.credentials}`: fields present in the
patch override; spreading an absent object changes nothing. -/
def mergeCredentials (c : AuthenticationCredentials) (p : Option CredPatch) :
    AuthenticationCredentials :=
  match p with
  | none => c
  | some p =>
    { publicKey := p.publicKey.getD c.publicKey
      privateKey := p.privateKey.getD c.privateKey
      serverPublicKey := p.serverPublicKey.getD c.serverPublicKey
      qrCode := match p.qrCode with | some v => some v | none => c.qrCode
      pairingCode := match p.pairingCode with | some v => some v | none => c.pairingCode
      session := match p.session with | some v => some v | none => c.session }

/-- `send` (WAConnection.ts): throws when the socket is missing or not
open, otherwise hands the payload to `ws.send` (encryption of the wire
bytes is keyed on stored credentials and does not change which payloads
are handed over, so the log records the payload itself). -/
def send (s : ConnState) (m : Envelope) : Except WAErr ConnState :=
  if s.ws = some true then Except.ok { s with sent := s.sent ++ [m] }
  else Except.error WAErr.wsNotOpen

/-- Settling an already settled promise is a no-op. -/
def settleFut {α : Type} : FutureSt α → FutureSt α → FutureSt α
  | .pending, new => new
  | old, _ => old

/-- Settle the promise bookkept under `key` (no-op when already settled). -/
def asettle {α : Type} : List (Nat × FutureSt α) → Nat → FutureSt α →
    List (Nat × FutureSt α)
  | [], _, _ => []
  | (k, v) :: rest, key, new =>
    if k = key then (k, settleFut v new) :: asettle rest key new
    else (k, v) :: asettle rest key new

/-- `sendRequest` (WAConnection.ts): assign the tag, arm the timeout,
store the pending entry, then send; a synchronous send failure clears the
timer, removes the entry and rejects the fresh promise.  Returns the new
state and the id of the created promise. -/
def sendRequest (s : ConnState) (request : Envelope) (draw : Fin 1000000) :
    ConnState × Nat :=
  let t := assignedTag request.tag draw
  let tagged := { request with tag := some t }
  let reqId := s.nextReqId
  let s1 := { s with
    nextReqId := reqId + 1
    reqFutures := (reqId, FutureSt.pending) :: s.reqFutures
    timers := (reqId, t) :: s.timers
    cache := aset s.cache t reqId }
  match send s1 tagged with
  | .ok s2 => (s2, reqId)
  | .error e =>
    ({ s1 with
        timers := adelete s1.timers reqId
        cache := adelete s1.cache t
        reqFutures := asettle s1.reqFutures reqId (.rejected e) }, reqId)

/-- `disconnect` (WAConnection.ts): stop keepalive, close and drop the
socket (after removing its listeners, so no close event is delivered),
set `disconnected`, and clear `msgRetryCache`.  Pending promises and armed
timers are not touched. -/
def disconnect (s : ConnState) : ConnState :=
  { s with keepAlive := false, ws := none, authState := .disconnected, cache := [] }

/-- A request timeout firing: runs only while its timer is armed; deletes
the tag from the cache and rejects the request promise. -/
def fireTimeout (s : ConnState) (reqId : Nat) : ConnState :=
  match alookup s.timers reqId with
  | none => s
  | some t =>
    { s with
        timers := adelete s.timers reqId
        cache := adelete s.cache t
        reqFutures := asettle s.reqFutures reqId (.rejected (.requestTimedOut t)) }

/-- `handleAuthSuccess` (WAConnection.ts): without stored credentials only
a warning is logged; otherwise merge the server fields, become
`connected`, resolve the armed authentication promise, emit `open`. -/
def handleAuthSuccess (s : ConnState) (m : Envelope) : ConnState × List WAEvent :=
  match s.credentials with
  | none => (s, [])
  | some c =>
    match s.authFuture with
    | some FutureSt.pending =>
      ({ s with
          credentials := some (mergeCredentials c m.credentials)
          authState := .connected
          authFuture := some (.resolved ()) }, [WAEvent.opened])
    | _ =>
      ({ s with
          credentials := some (mergeCredentials c m.credentials)
          authState := .connected }, [WAEvent.opened])

/-- `handleConnectionClose` (WAConnection.ts): reject an in-flight
authentication promise, become `disconnected`, emit `close`. -/
def handleConnectionClose (code : Nat) (reason : Str) (s : ConnState) :
    ConnState × List WAEvent :=
  match s.authState, s.authFuture with
  | .authenticating, some FutureSt.pending =>
    ({ s with
        authFuture := some (.rejected (.closedDuringAuth code reason))
        authState := .disconnected }, [WAEvent.closed code reason])
  | _, _ =>
    ({ s with authState := .disconnected }, [WAEvent.closed code reason])

/-- Outcome the cached callbacks give a correlated response: reject with
the server-reported error when `message.error` is truthy, else resolve
with the whole message. -/
def responseOutcome (m : Envelope) : FutureSt Envelope :=
  match m.error with
  | some e => if e = [] then .resolved m else .rejected (.serverError e)
  | none => .resolved m

/-- Whether `message.tag && this.msgRetryCache.has(message.tag)` holds. -/
def tagMatched (s : ConnState) (m : Envelope) : Bool :=
  match m.tag with
  | some t => decide (t ≠ []) && (alookup s.cache t).isSome
  | none => false

/-- The push-event classification in `handleIncomingMessage`, in source
order: auth-success path, then `message`, then the switch over the other
push kinds, with unknown types logged and dropped. -/
def dispatchByType (s : ConnState) (m : Envelope) : ConnState × List WAEvent :=
  if m.type = "auth_success".toList then handleAuthSuccess s m
  else if m.type = "message".toList then (s, [WAEvent.message (parseMessageNode m.data)])
  else if m.type = "presence_update".toList then (s, [WAEvent.presenceUpdate m.data])
  else if m.type = "group_update".toList then (s, [WAEvent.groupUpdate m.data])
  else if m.type = "message_revoke".toList then (s, [WAEvent.messageRevoke m.data])
  else if m.type = "message_create".toList then (s, [WAEvent.messageCreate m.data])
  else (s, [])

/-- `handleIncomingMessage` (WAConnection.ts). -/
def handleIncomingMessage (s : ConnState) (m : Envelope) : ConnState × List WAEvent :=
  match m.tag with
  | some t =>
    if t = [] then dispatchByType s m
    else
      match alookup s.cache t with
      | some reqId =>
        ({ s with
            timers := adelete s.timers reqId
            cache := adelete s.cache t
            reqFutures := asettle s.reqFutures reqId (responseOutcome m) }, [])
      | none => dispatchByType s m
  | none => dispatchByType s m

/-! ## Reachability of WAConnection states

One step is one synchronous block of the source between suspension
points; the callbacks (`handleIncomingMessage`, `handleConnectionClose`,
timer callbacks) may interleave anywhere, which the relation reflects by
imposing only the preconditions the source itself checks. -/

/-- The empty freshly constructed `WAConnection`. -/
def initialConn : ConnState := {}

/-- Atomic transitions of a `WAConnection`. -/
inductive Step : ConnState → ConnState → Prop where
  /-- `connect`: fails fast when a socket exists, else sets `connecting`
  and creates the (not yet open) socket. -/
  | connectStart (s : ConnState) (h : s.ws = none) :
      Step s { s with ws := some false, authState := .connecting }
  /-- the socket open event awaited by `waitForOpen`. -/
  | wsOpened (s : ConnState) (h : s.ws = some false) :
      Step s { s with ws := some true }
  /-- `startKeepAlive` at the end of `connect`. -/
  | keepAliveStarted (s : ConnState) :
      Step s { s with keepAlive := true }
  /-- a bare `send` (init message, auth message, keepalive ping). -/
  | sendMsg (s s' : ConnState) (m : Envelope) (h : send s m = .ok s') :
      Step s s'
  /-- `sendRequest` up to its suspension. -/
  | sendReq (s : ConnState) (request : Envelope) (draw : Fin 1000000) :
      Step s (sendRequest s request draw).1
  /-- `connectWithCredentials` after its inner `connect` succeeded:
  stores the supplied credentials and starts the resume handshake. -/
  | resumeStart (s : ConnState) (c : AuthenticationCredentials)
      (h1 : s.authState = .connecting) (h2 : s.ws = some true) :
      Step s { s with credentials := some c, inFlight := some .resume }
  /-- `connectWithCredentials` resuming after `authenticate`: becomes
  `connected` and emits `open`. -/
  | resumeSuccess (s : ConnState) (h : s.inFlight = some .resume) :
      Step s { s with authState := .connected, inFlight := none }
  /-- `requestQRCode` / `requestPairingCode` entry: legal only from
  `connecting`. -/
  | authReqStart (s : ConnState) (k : FlightKind)
      (hk : k = .qrReq ∨ k = .pairReq) (h : s.authState = .connecting) :
      Step s { s with inFlight := some k }
  /-- `requestQRCode` resuming after its `sendRequest` response: stores
  the partial credentials, sets `authenticating`, arms the
  authentication promise. -/
  | qrReqFinish (s : ConnState) (pk sk spk qr : Str)
      (h : s.inFlight = some .qrReq) :
      Step s { s with
        credentials := some ⟨pk, sk, spk, some qr, none, none⟩
        authState := .authenticating
        authFuture := some .pending
        inFlight := none }
  /-- `requestPairingCode` resuming after its `sendRequest` response. -/
  | pairReqFinish (s : ConnState) (pk sk spk pc : Str)
      (h : s.inFlight = some .pairReq) :
      Step s { s with
        credentials := some ⟨pk, sk, spk, none, some pc, none⟩
        authState := .authenticating
        authFuture := some .pending
        inFlight := none }
  /-- `waitForAuthentication` arming the promise when none exists. -/
  | waitForAuthArm (s : ConnState) (h1 : s.authState = .authenticating)
      (h2 : s.authFuture = none) :
      Step s { s with authFuture := some .pending }
  /-- an inbound envelope delivered to `handleIncomingMessage`. -/
  | incoming (s : ConnState) (m : Envelope) :
      Step s (handleIncomingMessage s m).1
  /-- the socket close event delivered to `handleConnectionClose`. -/
  | closeEvt (s : ConnState) (code : Nat) (reason : Str) :
      Step s (handleConnectionClose code reason s).1
  /-- a `disconnect()` call. -/
  | discStep (s : ConnState) :
      Step s (disconnect s)
  /-- a request timeout firing. -/
  | timerFire (s : ConnState) (reqId : Nat) :
      Step s (fireTimeout s reqId)

/-- States reachable from a fresh connection. -/
def Reachable (s : ConnState) : Prop :=
  Relation.ReflTransGen Step initialConn s

/-- The connection invariant of claim C2, strengthened with the fact that
a resume handshake only runs after its credentials were stored. -/
def ConnInv (s : ConnState) : Prop :=
  (s.authState = .connected → s.credentials.isSome) ∧
    (s.inFlight = some .resume → s.credentials.isSome)

/-! ## FocksupClient.handleReconnection (claim C6) -/

/-- Events `handleReconnection` emits. -/
inductive ClientEvent where
  | reconnecting (attempt : Nat)
  | reconnected
  | reconnectFailed
deriving DecidableEq, Repr

/-- The `while (attempts < maxReconnectAttempts)` loop, recursing on the
remaining attempts (`maxReconnectAttempts - attempts`); `outcomes n` is
whether the n-th `connect(credentials)` call succeeds. -/
def reconnectLoop (outcomes : Nat → Bool) (attempts : Nat) :
    Nat → List ClientEvent
  | 0 => [ClientEvent.reconnectFailed]
  | remaining + 1 =>
    let a := attempts + 1
    ClientEvent.reconnecting a ::
      (if outcomes a then [ClientEvent.reconnected]
       else reconnectLoop outcomes a remaining)

/-- `handleReconnection` (Client.ts): without stored credentials only a
warning is logged; otherwise the bounded retry loop runs with its local
attempt counter starting at 0. -/
def handleReconnection (credentials : Option AuthenticationCredentials)
    (maxReconnectAttempts : Nat) (outcomes : Nat → Bool) : List ClientEvent :=
  match credentials with
  | none => []
  | some _ => reconnectLoop outcomes 0 maxReconnectAttempts

/-! ## Reference semantics of getCredentials (claim C8)

JS objects live on a heap and variables hold references.
`getCredentials()` is `return this.credentials;` — it returns the stored
reference itself, not a copy. -/

/-- Heap address of a credentials object. -/
abbrev Addr := Nat

/-- The heap of credential objects. -/
abbrev CredHeap := List (Addr × AuthenticationCredentials)

/-- The connection as seen by the reference model: it stores a reference
to its credentials object (or none). -/
structure RefConnState where
  credentialsRef : Option Addr := none

/-- `getCredentials` (WAConnection.ts): `return this.credentials;` — the
stored reference is handed out. -/
def getCredentials (conn : RefConnState) : Option Addr :=
  conn.credentialsRef

/-- A caller-side mutation of the object behind a reference, e.g.
`creds.publicKey = ...` on the value `getCredentials()` returned. -/
def mutateAt : CredHeap → Addr →
    (AuthenticationCredentials → AuthenticationCredentials) → CredHeap
  | [], _, _ => []
  | (k, v) :: rest, a, f =>
    if k = a then (k, f v) :: mutateAt rest a f
    else (k, v) :: mutateAt rest a f

/-- The credentials the connection sees internally: the object its stored
reference points to. -/
def internalCredentials (h : CredHeap) (conn : RefConnState) :
    Option AuthenticationCredentials :=
  match conn.credentialsRef with
  | none => none
  | some a => alookup h a

/-! ## Concrete fixtures used by counterexamples and witnesses -/

/-- A concrete credentials bundle. -/
def exCreds : AuthenticationCredentials :=
  { publicKey := "pk".toList, privateKey := "sk".toList,
    serverPublicKey := "spk".toList }

/-- A concrete untagged request `{type: "message", data: ...}`. -/
def exRequest : Envelope :=
  { type := "message".toList, data := Json.obj [("text".toList, Json.str "hi".toList)] }

/-- A connected connection with an open socket. -/
def exConnected : ConnState :=
  { ws := some true, authState := .connected, credentials := some exCreds }

/-- `exConnected` after one `sendRequest` that got no response, then
`disconnect()`. -/
def exAfterDisconnect : ConnState :=
  disconnect (sendRequest exConnected exRequest ⟨42, by decide⟩).1

/-- An authenticating connection with an armed authentication promise. -/
def exAuthenticating : ConnState :=
  { ws := some true, authState := .authenticating, credentials := some exCreds,
    authFuture := some FutureSt.pending }

/-- A connected state as produced by the `connectWithCredentials` path
from a fresh connection (used to witness reachability). -/
def exReachedConn : ConnState :=
  { ws := some true, authState := .connected, credentials := some exCreds }

/-- Whether a bookkept request promise is currently rejected. -/
def isRejectedFut : Option (FutureSt Envelope) → Bool
  | some (FutureSt.rejected _) => true
  | _ => false

/-- Whether a bookkept request promise is still pending. -/
def isPendingFut : Option (FutureSt Envelope) → Bool
  | some FutureSt.pending => true
  | _ => false

/-- The six inbound types `handleIncomingMessage` recognizes. -/
def knownInboundTypes : List Str :=
  ["auth_success".toList, "message".toList, "presence_update".toList,
   "group_update".toList, "message_revoke".toList, "message_create".toList]

/-! ### Injectivity of decimal rendering -/

/-- Numeric value of a decimal digit character. -/
def digitVal (c : Char) : Nat := c.toNat - 48

/-- Fold a digit list back to the number it denotes. -/
def parseDigitsFrom (acc : Nat) (l : List Char) : Nat :=
  l.foldl (fun a c => 10 * a + digitVal c) acc

/-- Value of a digit list, most significant first. -/
def parseDigits (l : List Char) : Nat := parseDigitsFrom 0 l

theorem digitVal_digitChar {n : Nat} (h : n < 10) :
    digitVal (digitChar n) = n := by
  interval_cases n <;> rfl

theorem parseDigitsFrom_append (acc : Nat) (l₁ l₂ : List Char) :
    parseDigitsFrom acc (l₁ ++ l₂) = parseDigitsFrom (parseDigitsFrom acc l₁) l₂ := by
  simp [parseDigitsFrom, List.foldl_append]

theorem parseDigits_natDigitsAux {fuel n : Nat} (h : n < fuel) :
    parseDigits (natDigitsAux fuel n) = n := by
  induction fuel generalizing n with
  | zero => exact absurd h (Nat.not_lt_zero n)
  | succ fuel ih =>
    rw [natDigitsAux]
    by_cases hn : n < 10
    · simp [parseDigits, parseDigitsFrom, digitVal_digitChar hn, hn]
    · have hpos : 0 < n := Nat.lt_of_lt_of_le (by norm_num) (Nat.le_of_not_lt hn)
      have hdiv : n / 10 < fuel :=
        Nat.lt_of_lt_of_le (Nat.div_lt_self hpos (by norm_num))
          (Nat.le_of_lt_succ h)
      have hih : parseDigitsFrom 0 (natDigitsAux fuel (n / 10)) = n / 10 := ih hdiv
      simp only [hn, if_false, parseDigits, parseDigitsFrom_append, hih]
      simp only [parseDigitsFrom, List.foldl]
      rw [digitVal_digitChar (Nat.mod_lt n (by norm_num))]
      omega

theorem parseDigits_natDigits (n : Nat) : parseDigits (natDigits n) = n :=
  parseDigits_natDigitsAux (Nat.lt_succ_self n)

theorem natDigits_injective : Function.Injective natDigits := by
  intro a b h
  have := congrArg parseDigits h
  simpa [parseDigits_natDigits] using this

theorem generateMessageTag_injective : Function.Injective generateMessageTag := by
  intro a b h
  exact Fin.val_injective (natDigits_injective h)

/-! ### Association list facts -/

theorem alookup_adelete {α β : Type} [DecidableEq α] (l : List (α × β)) (k : α) :
    alookup (adelete l k) k = none := by
  induction l with
  | nil => rfl
  | cons kv rest ih =>
    by_cases h : kv.1 = k
    · simpa [adelete, h] using ih
    · simpa [adelete, alookup, h] using ih

theorem alookup_asettle (l : List (Nat × FutureSt Envelope)) (k : Nat)
    (new : FutureSt Envelope) :
    alookup (asettle l k new) k =
      (alookup l k).map (fun old => settleFut old new) := by
  induction l with
  | nil => rfl
  | cons kv rest ih =>
    obtain ⟨k', v⟩ := kv
    by_cases h : k' = k
    · subst h
      simp [asettle, alookup]
    · simp [asettle, alookup, h, ih]
theorem send_not_open {s : ConnState} {m : Envelope} (h : s.ws = none) :
    send s m = .error WAErr.wsNotOpen := by
  simp [send, h]

/-! ## C1: disconnect and the pending-request registry -/

/-- C1 counterexample: from a connected state, one `sendRequest` that
receives no response followed by `disconnect()` leaves the registry empty
but leaves the pending request future unsettled — it is not rejected
(with `ConnectionClosed` or anything else); `disconnect` only clears
`msgRetryCache`. -/
theorem focksup_C1_counterexample :
    exAfterDisconnect.cache = [] ∧
    isPendingFut (alookup exAfterDisconnect.reqFutures 0) = true ∧
    isRejectedFut (alookup exAfterDisconnect.reqFutures 0) = false :=
  ⟨rfl, rfl, rfl⟩

/-- C1 (amended): `disconnect()` empties the request registry and
transitions to `disconnected`, but it does not reject pending request
futures: they are left exactly as they were (their armed timeouts later
reject each with `RequestTimeout`, not `ConnectionClosed`). -/
theorem focksup_C1_disconnect_drops_pending (s : ConnState) :
    (disconnect s).cache = [] ∧
    (disconnect s).reqFutures = s.reqFutures ∧
    (disconnect s).timers = s.timers ∧
    (disconnect s).authState = .disconnected ∧
    (∀ reqId t, alookup s.timers reqId = some t →
      isPendingFut (alookup s.reqFutures reqId) = true →
      alookup (fireTimeout (disconnect s) reqId).reqFutures reqId =
        some (FutureSt.rejected (WAErr.requestTimedOut t))) := by
  refine ⟨rfl, rfl, rfl, rfl, fun reqId t ht hp => ?_⟩
  have ht' : alookup (disconnect s).timers reqId = some t := ht
  simp only [fireTimeout, ht', alookup_asettle]
  cases hfut : alookup s.reqFutures reqId with
  | none => rw [hfut] at hp; exact absurd hp (by simp [isPendingFut])
  | some f =>
    cases f with
    | pending => simp [disconnect, hfut, settleFut]
    | resolved v => rw [hfut] at hp; exact absurd hp (by simp [isPendingFut])
    | rejected e => rw [hfut] at hp; exact absurd hp (by simp [isPendingFut])

/-- C1 witness: a connected state with one in-flight request, after
`disconnect()`: registry empty, future untouched, and its timer firing
rejects it with the timeout error. -/
theorem focksup_C1_witness :
    (disconnect (sendRequest exConnected exRequest ⟨42, by norm_num⟩).1).cache = [] ∧
    alookup (fireTimeout
        (disconnect (sendRequest exConnected exRequest ⟨42, by norm_num⟩).1) 0).reqFutures 0 =
      some (FutureSt.rejected (WAErr.requestTimedOut ['4', '2'])) := by
  have h := focksup_C1_disconnect_drops_pending
    (sendRequest exConnected exRequest ⟨42, by norm_num⟩).1
  exact ⟨h.1, h.2.2.2.2 0 ['4', '2'] rfl rfl⟩

/-! ## C3: disconnection while authenticating -/

/-- C3 counterexample: in an authenticating state with an armed
authentication future, `disconnect()` transitions to `disconnected` but
leaves the future pending — it is not rejected, because `disconnect`
removes the socket listeners before the close event can run
`handleConnectionClose`, and touches neither `authResolve` nor
`authReject`. -/
theorem focksup_C3_counterexample :
    (disconnect exAuthenticating).authState = AuthState.disconnected ∧
    (disconnect exAuthenticating).authFuture = some FutureSt.pending :=
  ⟨rfl, rfl⟩

/-- C3 (amended): an unexpected transport close while authenticating
deterministically rejects the in-flight authentication future and
transitions to `disconnected`; a caller-invoked `disconnect()` also
transitions to `disconnected` but leaves the future exactly as it was
(pending futures stay pending forever). -/
theorem focksup_C3_close_vs_disconnect :
    (∀ (s : ConnState) (code : Nat) (reason : Str),
      s.authState = .authenticating →
      s.authFuture = some FutureSt.pending →
      (handleConnectionClose code reason s).1.authFuture =
          some (FutureSt.rejected (WAErr.closedDuringAuth code reason)) ∧
        (handleConnectionClose code reason s).1.authState = .disconnected) ∧
    (∀ s : ConnState,
      (disconnect s).authState = .disconnected ∧
        (disconnect s).authFuture = s.authFuture) := by
  constructor
  · intro s code reason h1 h2
    simp [handleConnectionClose, h1, h2]
  · intro s
    exact ⟨rfl, rfl⟩

/-- C3 witness: the close-event path at a concrete authenticating state
with close code 1006. -/
theorem focksup_C3_witness :
    (handleConnectionClose 1006 "abnormal".toList exAuthenticating).1.authFuture =
      some (FutureSt.rejected (WAErr.closedDuringAuth 1006 "abnormal".toList)) :=
  (focksup_C3_close_vs_disconnect.1 exAuthenticating 1006 "abnormal".toList rfl rfl).1

/-! ## C5: sendRequest while disconnected -/

/-- C5: a `sendRequest` issued while disconnected (no socket) fails
immediately — the fresh promise is rejected with the not-open error (the
code site of the spec `IllegalState`) — no payload is handed to the
transport, and no registry entry for the request survives. -/
theorem focksup_C5_sendRequest_disconnected
    (s : ConnState) (request : Envelope) (draw : Fin 1000000)
    (h1 : s.authState = .disconnected) (h2 : s.ws = none) :
    alookup (sendRequest s request draw).1.reqFutures
        (sendRequest s request draw).2 =
      some (FutureSt.rejected WAErr.wsNotOpen) ∧
    (sendRequest s request draw).1.sent = s.sent ∧
    alookup (sendRequest s request draw).1.cache
        (assignedTag request.tag draw) = none := by
  have hsend : send { s with
      nextReqId := s.nextReqId + 1
      reqFutures := (s.nextReqId, FutureSt.pending) :: s.reqFutures
      timers := (s.nextReqId, assignedTag request.tag draw) :: s.timers
      cache := aset s.cache (assignedTag request.tag draw) s.nextReqId }
      { request with tag := some (assignedTag request.tag draw) } =
      .error WAErr.wsNotOpen := send_not_open h2
  have e1 : (sendRequest s request draw).1.sent = s.sent := by
    simp only [sendRequest, hsend]
  have e3 : alookup (sendRequest s request draw).1.cache
      (assignedTag request.tag draw) = none := by
    simp only [sendRequest, hsend]
    exact alookup_adelete _ _
  have e2 : alookup (sendRequest s request draw).1.reqFutures
      (sendRequest s request draw).2 =
      some (FutureSt.rejected WAErr.wsNotOpen) := by
    simp only [sendRequest, hsend]
    rw [alookup_asettle]
    simp [alookup, settleFut]
  exact ⟨e2, e1, e3⟩

/-- C5 witness: a fresh disconnected connection; the request promise is
rejected, nothing reaches the transport, the registry stays empty. -/
theorem focksup_C5_witness :
    alookup (sendRequest initialConn exRequest ⟨7, by norm_num⟩).1.reqFutures
        (sendRequest initialConn exRequest ⟨7, by norm_num⟩).2 =
      some (FutureSt.rejected WAErr.wsNotOpen) ∧
    (sendRequest initialConn exRequest ⟨7, by norm_num⟩).1.sent = initialConn.sent ∧
    alookup (sendRequest initialConn exRequest ⟨7, by norm_num⟩).1.cache
        (assignedTag exRequest.tag ⟨7, by norm_num⟩) = none :=
  focksup_C5_sendRequest_disconnected initialConn exRequest _ rfl rfl

/-! ## C2: connected only with credentials -/

theorem send_ok_fields {s s' : ConnState} {m : Envelope}
    (h : send s m = .ok s') :
    s'.authState = s.authState ∧ s'.credentials = s.credentials ∧
      s'.inFlight = s.inFlight := by
  unfold send at h
  split at h
  · cases h; exact ⟨rfl, rfl, rfl⟩
  · cases h

theorem sendRequest_fields (s : ConnState) (request : Envelope)
    (draw : Fin 1000000) :
    (sendRequest s request draw).1.authState = s.authState ∧
      (sendRequest s request draw).1.credentials = s.credentials ∧
      (sendRequest s request draw).1.inFlight = s.inFlight := by
  unfold sendRequest
  dsimp only
  split
  · next s2 heq =>
    have hf := send_ok_fields heq
    exact ⟨hf.1, hf.2.1, hf.2.2⟩
  · exact ⟨rfl, rfl, rfl⟩

theorem handleAuthSuccess_inv (s : ConnState) (m : Envelope) (h : ConnInv s) :
    ConnInv (handleAuthSuccess s m).1 := by
  unfold handleAuthSuccess
  split
  · exact h
  · split
    · exact ⟨(fun _ => rfl), (fun _ => rfl)⟩
    · exact ⟨(fun _ => rfl), (fun _ => rfl)⟩

theorem dispatchByType_inv (s : ConnState) (m : Envelope) (h : ConnInv s) :
    ConnInv (dispatchByType s m).1 := by
  unfold dispatchByType
  split
  · exact handleAuthSuccess_inv s m h
  · split
    · exact h
    · split
      · exact h
      · split
        · exact h
        · split
          · exact h
          · split
            · exact h
            · exact h

theorem handleIncomingMessage_inv (s : ConnState) (m : Envelope)
    (h : ConnInv s) : ConnInv (handleIncomingMessage s m).1 := by
  unfold handleIncomingMessage
  split
  · next t heq =>
    split
    · exact dispatchByType_inv s m h
    · split
      · exact ⟨h.1, h.2⟩
      · exact dispatchByType_inv s m h
  · exact dispatchByType_inv s m h

theorem handleConnectionClose_inv (code : Nat) (reason : Str)
    (s : ConnState) (h : ConnInv s) :
    ConnInv (handleConnectionClose code reason s).1 := by
  unfold handleConnectionClose
  split
  · exact ⟨(fun hc => nomatch hc), h.2⟩
  · exact ⟨(fun hc => nomatch hc), h.2⟩

theorem fireTimeout_inv (s : ConnState) (reqId : Nat) (h : ConnInv s) :
    ConnInv (fireTimeout s reqId) := by
  unfold fireTimeout
  split
  · exact h
  · exact ⟨h.1, h.2⟩

theorem step_preserves_inv {s s' : ConnState} (h : ConnInv s)
    (hs : Step s s') : ConnInv s' := by
  cases hs with
  | connectStart h1 => exact ⟨(fun hc => nomatch hc), h.2⟩
  | wsOpened h1 => exact h
  | keepAliveStarted => exact h
  | sendMsg s2 m hsend =>
    obtain ⟨h1, h2, h3⟩ := send_ok_fields hsend
    constructor
    · intro hc
      rw [h1] at hc
      rw [h2]
      exact h.1 hc
    · intro hr
      rw [h3] at hr
      rw [h2]
      exact h.2 hr
  | sendReq request draw =>
    obtain ⟨h1, h2, h3⟩ := sendRequest_fields s request draw
    constructor
    · intro hc
      rw [h1] at hc
      rw [h2]
      exact h.1 hc
    · intro hr
      rw [h3] at hr
      rw [h2]
      exact h.2 hr
  | resumeStart c h1 h2 => exact ⟨(fun _ => rfl), (fun _ => rfl)⟩
  | resumeSuccess hres => exact ⟨(fun _ => h.2 hres), (fun hr => nomatch hr)⟩
  | authReqStart k hk h1 =>
    refine ⟨h.1, fun hr => ?_⟩
    rcases hk with rfl | rfl
    · exact nomatch hr
    · exact nomatch hr
  | qrReqFinish pk sk spk qr hfl => exact ⟨(fun _ => rfl), (fun _ => rfl)⟩
  | pairReqFinish pk sk spk pc hfl => exact ⟨(fun _ => rfl), (fun _ => rfl)⟩
  | waitForAuthArm h1 h2 => exact h
  | incoming m => exact handleIncomingMessage_inv s m h
  | closeEvt code reason => exact handleConnectionClose_inv code reason s h
  | discStep => exact ⟨(fun hc => nomatch hc), h.2⟩
  | timerFire reqId => exact fireTimeout_inv s reqId h

theorem reachable_inv {s : ConnState} (h : Reachable s) : ConnInv s := by
  induction h with
  | refl => exact ⟨(fun hc => nomatch hc), (fun hr => nomatch hr)⟩
  | tail _ hstep ih => exact step_preserves_inv ih hstep

/-- C2: in every reachable state of the connection state machine,
`authState = connected` implies that a credentials bundle is stored;
both paths that set `connected` (`handleAuthSuccess`, which guards on
stored credentials, and `connectWithCredentials`, which stores the given
credentials before completing) preserve the invariant. -/
theorem focksup_C2_connected_implies_credentials (s : ConnState)
    (h : Reachable s) (hc : s.authState = .connected) :
    s.credentials.isSome := (reachable_inv h).1 hc

/-- C2 witness: a connected state reached through
connect, socket open, credential resume, resume success. -/
theorem focksup_C2_witness : exReachedConn.credentials.isSome :=
  focksup_C2_connected_implies_credentials exReachedConn
    (Relation.ReflTransGen.head (Step.connectStart initialConn rfl)
      (Relation.ReflTransGen.head (Step.wsOpened _ rfl)
        (Relation.ReflTransGen.head (Step.resumeStart _ exCreds rfl rfl)
          (Relation.ReflTransGen.head (Step.resumeSuccess _ rfl)
            Relation.ReflTransGen.refl))))
    rfl

/-! ## C7: inbound envelope classification -/

theorem handleIncomingMessage_unmatched {s : ConnState} {m : Envelope}
    (h : tagMatched s m = false) :
    handleIncomingMessage s m = dispatchByType s m := by
  unfold handleIncomingMessage
  cases hm : m.tag with
  | none => rfl
  | some t =>
    have h' : (decide (t ≠ []) && (alookup s.cache t).isSome) = false := by
      unfold tagMatched at h
      rw [hm] at h
      exact h
    by_cases ht : t = []
    · simp [ht]
    · simp [ht] at h'
      simp only [ht, if_false]
      cases hc : alookup s.cache t with
      | none => rfl
      | some reqId =>
        rw [hc] at h'
        simp at h'

/-- C7: routing of inbound envelopes.  A tag matching a registered pending
request consumes the envelope (no event), removes the entry, and settles
the request promise — resolved without an error field, rejected with the
server-reported error otherwise.  Unmatched envelopes are classified by
`type` into the closed push-event set (`auth_success` path, `message`,
`presence_update`, `group_update`, `message_revoke`, `message_create`);
an unknown type is dropped without an error, an event, or a state
change. -/
theorem focksup_C7_handleIncomingMessage :
    (∀ (s : ConnState) (m : Envelope) (t : Str) (reqId : Nat),
      m.tag = some t → t ≠ [] → alookup s.cache t = some reqId →
      handleIncomingMessage s m =
        ({ s with timers := adelete s.timers reqId,
                  cache := adelete s.cache t,
                  reqFutures := asettle s.reqFutures reqId (responseOutcome m) },
          []) ∧
      alookup (handleIncomingMessage s m).1.cache t = none) ∧
    (∀ (m : Envelope) (e : Str), m.error = some e → e ≠ [] →
      responseOutcome m = FutureSt.rejected (WAErr.serverError e)) ∧
    (∀ m : Envelope, m.error = none → responseOutcome m = FutureSt.resolved m) ∧
    (∀ (s : ConnState) (m : Envelope), tagMatched s m = false →
      m.type = "auth_success".toList →
      handleIncomingMessage s m = handleAuthSuccess s m) ∧
    (∀ (s : ConnState) (m : Envelope), tagMatched s m = false →
      m.type = "message".toList →
      handleIncomingMessage s m = (s, [WAEvent.message (parseMessageNode m.data)])) ∧
    (∀ (s : ConnState) (m : Envelope), tagMatched s m = false →
      m.type = "presence_update".toList →
      handleIncomingMessage s m = (s, [WAEvent.presenceUpdate m.data])) ∧
    (∀ (s : ConnState) (m : Envelope), tagMatched s m = false →
      m.type = "group_update".toList →
      handleIncomingMessage s m = (s, [WAEvent.groupUpdate m.data])) ∧
    (∀ (s : ConnState) (m : Envelope), tagMatched s m = false →
      m.type = "message_revoke".toList →
      handleIncomingMessage s m = (s, [WAEvent.messageRevoke m.data])) ∧
    (∀ (s : ConnState) (m : Envelope), tagMatched s m = false →
      m.type = "message_create".toList →
      handleIncomingMessage s m = (s, [WAEvent.messageCreate m.data])) ∧
    (∀ (s : ConnState) (m : Envelope), tagMatched s m = false →
      m.type ∉ knownInboundTypes →
      handleIncomingMessage s m = (s, [])) := by
  refine ⟨?_, ?_, ?_, ?_, ?_, ?_, ?_, ?_, ?_, ?_⟩
  · intro s m t reqId h1 h2 h3
    have heq : handleIncomingMessage s m =
        ({ s with timers := adelete s.timers reqId,
                  cache := adelete s.cache t,
                  reqFutures := asettle s.reqFutures reqId (responseOutcome m) },
          []) := by
      unfold handleIncomingMessage
      rw [h1]
      simp [h2, h3]
    exact ⟨heq, by rw [heq]; exact alookup_adelete _ _⟩
  · intro m e h1 h2
    simp [responseOutcome, h1, h2]
  · intro m h1
    simp [responseOutcome, h1]
  · intro s m h htype
    rw [handleIncomingMessage_unmatched h]
    simp [dispatchByType, htype]
  · intro s m h htype
    have hne : m.type ≠ "auth_success".toList := by rw [htype]; decide
    rw [handleIncomingMessage_unmatched h]
    simp [dispatchByType, htype, hne]
  · intro s m h htype
    have hne1 : m.type ≠ "auth_success".toList := by rw [htype]; decide
    have hne2 : m.type ≠ "message".toList := by rw [htype]; decide
    rw [handleIncomingMessage_unmatched h]
    simp [dispatchByType, htype, hne1, hne2]
  · intro s m h htype
    have hne1 : m.type ≠ "auth_success".toList := by rw [htype]; decide
    have hne2 : m.type ≠ "message".toList := by rw [htype]; decide
    have hne3 : m.type ≠ "presence_update".toList := by rw [htype]; decide
    rw [handleIncomingMessage_unmatched h]
    simp [dispatchByType, htype, hne1, hne2, hne3]
  · intro s m h htype
    have hne1 : m.type ≠ "auth_success".toList := by rw [htype]; decide
    have hne2 : m.type ≠ "message".toList := by rw [htype]; decide
    have hne3 : m.type ≠ "presence_update".toList := by rw [htype]; decide
    have hne4 : m.type ≠ "group_update".toList := by rw [htype]; decide
    rw [handleIncomingMessage_unmatched h]
    simp [dispatchByType, htype, hne1, hne2, hne3, hne4]
  · intro s m h htype
    have hne1 : m.type ≠ "auth_success".toList := by rw [htype]; decide
    have hne2 : m.type ≠ "message".toList := by rw [htype]; decide
    have hne3 : m.type ≠ "presence_update".toList := by rw [htype]; decide
    have hne4 : m.type ≠ "group_update".toList := by rw [htype]; decide
    have hne5 : m.type ≠ "message_revoke".toList := by rw [htype]; decide
    rw [handleIncomingMessage_unmatched h]
    simp [dispatchByType, htype, hne1, hne2, hne3, hne4, hne5]
  · intro s m h htype
    have h1 : m.type ≠ "auth_success".toList := fun hh =>
      htype (hh ▸ (by decide : "auth_success".toList ∈ knownInboundTypes))
    have h2 : m.type ≠ "message".toList := fun hh =>
      htype (hh ▸ (by decide : "message".toList ∈ knownInboundTypes))
    have h3 : m.type ≠ "presence_update".toList := fun hh =>
      htype (hh ▸ (by decide : "presence_update".toList ∈ knownInboundTypes))
    have h4 : m.type ≠ "group_update".toList := fun hh =>
      htype (hh ▸ (by decide : "group_update".toList ∈ knownInboundTypes))
    have h5 : m.type ≠ "message_revoke".toList := fun hh =>
      htype (hh ▸ (by decide : "message_revoke".toList ∈ knownInboundTypes))
    have h6 : m.type ≠ "message_create".toList := fun hh =>
      htype (hh ▸ (by decide : "message_create".toList ∈ knownInboundTypes))
    rw [handleIncomingMessage_unmatched h]
    unfold dispatchByType
    rw [if_neg h1, if_neg h2, if_neg h3, if_neg h4, if_neg h5, if_neg h6]

/-- C7 witness: a matched response envelope consumes its registry entry
without emitting, and an unknown-typed push on a connected state changes
nothing. -/
theorem focksup_C7_witness :
    alookup (handleIncomingMessage
        { exConnected with cache := [(['1'], 0)],
                           reqFutures := [(0, FutureSt.pending)],
                           timers := [(0, ['1'])] }
        { tag := some ['1'], type := "message".toList }).1.cache ['1'] = none ∧
    handleIncomingMessage exConnected { type := "weird".toList } =
      (exConnected, []) := by
  refine ⟨(focksup_C7_handleIncomingMessage.1
    { exConnected with cache := [(['1'], 0)],
                       reqFutures := [(0, FutureSt.pending)],
                       timers := [(0, ['1'])] }
    { tag := some ['1'], type := "message".toList }
    ['1'] 0 rfl (by decide) (by decide)).2, ?_⟩
  exact focksup_C7_handleIncomingMessage.2.2.2.2.2.2.2.2.2 exConnected
    { type := "weird".toList } (by decide) (by decide)

/-! ## C4: tag uniqueness -/

/-- C4 counterexample: two concurrently issued `sendRequest` calls without
caller-supplied tags whose random draws coincide are assigned the same
tag, so the assigned tags are not pairwise distinct. -/
theorem focksup_C4_counterexample :
    ¬ (([⟨0, by norm_num⟩, ⟨0, by norm_num⟩] : List (Fin 1000000)).map
        (assignedTag none)).Nodup := by
  decide

/-- C4 (amended): `generateMessageTag` is `Math.floor(Math.random() *
1000000).toString()`; the tags assigned to N concurrent `sendRequest`
calls without caller-supplied tags are pairwise distinct whenever the N
underlying random draws are pairwise distinct — uniqueness is only as
good as the randomness, never checked against outstanding tags. -/
theorem focksup_C4_tags_distinct_iff_draws_distinct
    (draws : List (Fin 1000000)) (h : draws.Nodup) :
    (draws.map (assignedTag none)).Nodup := by
  refine List.Nodup.map ?_ h
  intro a b hab
  exact generateMessageTag_injective hab

/-- C4 witness: three concurrent calls with distinct draws get pairwise
distinct tags. -/
theorem focksup_C4_witness :
    (([⟨0, by norm_num⟩, ⟨1, by norm_num⟩, ⟨2, by norm_num⟩] :
        List (Fin 1000000)).map (assignedTag none)).Nodup :=
  focksup_C4_tags_distinct_iff_draws_distinct _ (by decide)

/-! ## C6: reconnection bound -/

theorem reconnectLoop_all_fail (outcomes : Nat → Bool)
    (h : ∀ n, outcomes n = false) :
    ∀ remaining attempts, reconnectLoop outcomes attempts remaining =
      (List.range' (attempts + 1) remaining).map ClientEvent.reconnecting ++
        [ClientEvent.reconnectFailed] := by
  intro remaining
  induction remaining with
  | zero => intro attempts; simp [reconnectLoop]
  | succ r ih =>
    intro attempts
    simp [reconnectLoop, h (attempts + 1), List.range', ih (attempts + 1)]

theorem reconnectLoop_first_success (outcomes : Nat → Bool) :
    ∀ remaining attempts j, attempts < j → j ≤ attempts + remaining →
      outcomes j = true → (∀ i, attempts < i → i < j → outcomes i = false) →
      reconnectLoop outcomes attempts remaining =
        (List.range' (attempts + 1) (j - attempts)).map ClientEvent.reconnecting ++
          [ClientEvent.reconnected] := by
  intro remaining
  induction remaining with
  | zero => intro attempts j hlt hle _ _; omega
  | succ r ih =>
    intro attempts j hlt hle hj hfail
    by_cases hj1 : j = attempts + 1
    · subst hj1
      simp [reconnectLoop, hj, List.range', show attempts + 1 - attempts = 1 by omega]
    · have hfirst : outcomes (attempts + 1) = false :=
        hfail (attempts + 1) (Nat.lt_succ_self attempts) (by omega)
      have ihr := ih (attempts + 1) j (by omega) (by omega) hj
        (fun i hi1 hi2 => hfail i (by omega) hi2)
      have hsub : j - attempts = (j - (attempts + 1)) + 1 := by omega
      simp [reconnectLoop, hfirst, ihr, hsub, List.range']

/-- C6: with stored credentials, `maxReconnectAttempts = K`, and every
reconnection attempt failing, `handleReconnection` emits exactly the K
`reconnecting` events numbered 1..K followed by exactly one
`reconnect_failed` and stops; with a first success at attempt j it emits
`reconnecting` 1..j then `reconnected` and returns — the attempt counter
(a loop-local variable starting at 0 on each supervision run) thus never
restarts during a run and a run ends only by success or exhaustion. -/
theorem focksup_C6_reconnect_bound :
    (∀ (c : AuthenticationCredentials) (K : Nat) (outcomes : Nat → Bool),
      (∀ n, outcomes n = false) →
      handleReconnection (some c) K outcomes =
        (List.range' 1 K).map ClientEvent.reconnecting ++
          [ClientEvent.reconnectFailed]) ∧
    (∀ (c : AuthenticationCredentials) (K : Nat) (outcomes : Nat → Bool) (j : Nat),
      1 ≤ j → j ≤ K → outcomes j = true →
      (∀ i, 1 ≤ i → i < j → outcomes i = false) →
      handleReconnection (some c) K outcomes =
        (List.range' 1 j).map ClientEvent.reconnecting ++
          [ClientEvent.reconnected]) := by
  constructor
  · intro c K outcomes h
    simpa using reconnectLoop_all_fail outcomes h K 0
  · intro c K outcomes j h1 h2 h3 h4
    have := reconnectLoop_first_success outcomes K 0 j (by omega) (by omega) h3
      (fun i hi1 hi2 => h4 i (by omega) hi2)
    simpa using this

/-- C6 witness: K = 3 and all attempts failing gives reconnecting 1, 2, 3
and then reconnect_failed. -/
theorem focksup_C6_witness :
    handleReconnection (some exCreds) 3 (fun _ => false) =
      (List.range' 1 3).map ClientEvent.reconnecting ++
        [ClientEvent.reconnectFailed] :=
  focksup_C6_reconnect_bound.1 exCreds 3 (fun _ => false) (fun _ => rfl)

/-! ## C8: getCredentials hands out a live reference -/

theorem alookup_mutateAt (h : CredHeap) (a : Addr)
    (f : AuthenticationCredentials → AuthenticationCredentials) :
    alookup (mutateAt h a f) a = (alookup h a).map f := by
  induction h with
  | nil => rfl
  | cons kv rest ih =>
    obtain ⟨k, v⟩ := kv
    by_cases hk : k = a
    · subst hk
      simp [mutateAt, alookup]
    · simp [mutateAt, alookup, hk, ih]

/-- C8 counterexample: `getCredentials()` returns the stored reference
itself, so a caller mutation through it (here overwriting `publicKey`)
changes the connection's internal credentials — the returned value is not
a copy. -/
theorem focksup_C8_counterexample :
    getCredentials { credentialsRef := some 0 } = some 0 ∧
    internalCredentials
        (mutateAt [(0, exCreds)] 0 (fun c => { c with publicKey := "evil".toList }))
        { credentialsRef := some 0 } ≠
      internalCredentials [(0, exCreds)] { credentialsRef := some 0 } := by
  exact ⟨rfl, by decide⟩

/-- C8 (amended): `getCredentials` returns the internally stored
reference, not a copy; consequently every caller mutation through the
returned reference is visible in the connection's internal credentials
state. -/
theorem focksup_C8_live_reference :
    (∀ conn : RefConnState, getCredentials conn = conn.credentialsRef) ∧
    (∀ (h : CredHeap) (conn : RefConnState) (a : Addr)
      (f : AuthenticationCredentials → AuthenticationCredentials),
      getCredentials conn = some a →
      internalCredentials (mutateAt h a f) conn = (alookup h a).map f) := by
  refine ⟨fun conn => rfl, fun h conn a f hr => ?_⟩
  have hc : conn.credentialsRef = some a := hr
  simp [internalCredentials, hc, alookup_mutateAt]

/-- C8 witness: the concrete heap with one credentials object; mutating
through the returned reference updates what the connection reads. -/
theorem focksup_C8_witness :
    internalCredentials
        (mutateAt [(0, exCreds)] 0 (fun c => { c with publicKey := "evil".toList }))
        { credentialsRef := some 0 } =
      (alookup [(0, exCreds)] 0).map (fun c => { c with publicKey := "evil".toList }) :=
  focksup_C8_live_reference.2 [(0, exCreds)] { credentialsRef := some 0 } 0
    (fun c => { c with publicKey := "evil".toList }) rfl

/-! ## C9: credential storage round trip -/

theorem parseQuoted_escape (s : Str) :
    ∀ rest, parseQuoted (escapeStr s ++ '"' :: rest) = some (s, rest) := by
  unfold parseQuoted
  induction s with
  | nil => intro rest; simp [escapeStr, parseQuotedAux]
  | cons c s ih =>
    intro rest
    by_cases h1 : c = '"'
    · subst h1; simp [escapeStr, escapeChar, parseQuotedAux, unescapeChar, ih]
    · by_cases h2 : c = '\\'
      · subst h2; simp [escapeStr, escapeChar, parseQuotedAux, unescapeChar, ih]
      · by_cases h3 : c = '\n'
        · subst h3; simp [escapeStr, escapeChar, parseQuotedAux, unescapeChar, ih]
        · by_cases h4 : c = '\t'
          · subst h4; simp [escapeStr, escapeChar, parseQuotedAux, unescapeChar, ih]
          · by_cases h5 : c = '\r'
            · subst h5; simp [escapeStr, escapeChar, parseQuotedAux, unescapeChar, ih]
            · simp [escapeStr, escapeChar, parseQuotedAux, h1, h2, h3, h4, h5, ih]

theorem expectLit_append (lit rest : Str) : expectLit lit (lit ++ rest) = some rest := by
  have hp : lit.isPrefixOf (lit ++ rest) = true := by
    rw [List.isPrefixOf_iff_prefix]
    exact ⟨rest, rfl⟩
  simp [expectLit, hp]

theorem expectLit_cons (c : Char) (x : Str) : expectLit [c] (c :: x) = some x :=
  expectLit_append [c] x

theorem jsonStrField_decompose (name v rest : Str) :
    jsonStrField name v ++ rest =
      ('"' :: name ++ ['"', ':', '"']) ++ (escapeStr v ++ '"' :: rest) := by
  simp [jsonStrField]

theorem parseField_emit (name v rest : Str) :
    parseField name (jsonStrField name v ++ rest) = some (v, rest) := by
  have h1 : expectLit ('"' :: name ++ ['"', ':', '"']) (jsonStrField name v ++ rest) =
      some (escapeStr v ++ '"' :: rest) := by
    rw [jsonStrField_decompose]
    exact expectLit_append _ _
  unfold parseField
  rw [h1]
  exact parseQuoted_escape v rest

theorem parseOptField_present (name v rest : Str) :
    parseOptField name (',' :: (jsonStrField name v ++ rest)) =
      some (some v, rest) := by
  have hp : '"' :: (name ++ ['"', ':', '"']) <+: jsonStrField name v ++ rest := by
    refine ⟨escapeStr v ++ '"' :: rest, ?_⟩
    rw [jsonStrField_decompose]
    simp
  simp [parseOptField, hp, parseField_emit]

theorem parseOptField_skip (name : Str) (rest : Str)
    (h : ¬ ('"' :: (name ++ ['"', ':', '"']) <+: rest)) :
    parseOptField name (',' :: rest) = some (none, ',' :: rest) := by
  simp [parseOptField, h]

theorem parseOptField_rbrace (name : Str) :
    parseOptField name ['}'] = some (none, ['}']) := rfl

theorem qrCode_not_prefix_pairing (v rest : Str) :
    ¬ ('"' :: ("qrCode".toList ++ ['"', ':', '"']) <+:
        jsonStrField "pairingCode".toList v ++ rest) := by
  intro hcontr
  obtain ⟨t, ht⟩ := hcontr
  simp [jsonStrField] at ht

theorem qrCode_not_prefix_session (v rest : Str) :
    ¬ ('"' :: ("qrCode".toList ++ ['"', ':', '"']) <+:
        jsonStrField "session".toList v ++ rest) := by
  intro hcontr
  obtain ⟨t, ht⟩ := hcontr
  simp [jsonStrField] at ht

theorem pairing_not_prefix_session (v rest : Str) :
    ¬ ('"' :: ("pairingCode".toList ++ ['"', ':', '"']) <+:
        jsonStrField "session".toList v ++ rest) := by
  intro hcontr
  obtain ⟨t, ht⟩ := hcontr
  simp [jsonStrField] at ht

/-- C9: `parseCredentialsFromStorage` recovers every credentials bundle
that `formatCredentialsForStorage` serialized, including every
combination of present and absent optional fields. -/
theorem focksup_C9_credentials_roundtrip (c : AuthenticationCredentials) :
    parseCredentialsFromStorage (formatCredentialsForStorage c) = some c := by
  obtain ⟨pk, sk, spk, qr, pc, ss⟩ := c
  simp only [formatCredentialsForStorage, parseCredentialsFromStorage]
  rcases qr with _ | v₁ <;> rcases pc with _ | v₂ <;> rcases ss with _ | v₃
  · simp only [jsonOptField, List.nil_append, List.append_nil, List.append_assoc, List.cons_append,
      parseField_emit, expectLit_cons, parseOptField_rbrace]
  · have hq := parseOptField_skip _ _ (qrCode_not_prefix_session v₃ ['}'])
    have hp2 := parseOptField_skip _ _ (pairing_not_prefix_session v₃ ['}'])
    simp only [jsonOptField, List.nil_append, List.append_nil, List.append_assoc, List.cons_append,
      parseField_emit, expectLit_cons, hq, hp2, parseOptField_present]
  · have hq := parseOptField_skip _ _ (qrCode_not_prefix_pairing v₂ ['}'])
    simp only [jsonOptField, List.nil_append, List.append_nil, List.append_assoc, List.cons_append,
      parseField_emit, expectLit_cons, hq, parseOptField_present,
      parseOptField_rbrace]
  · have hq := parseOptField_skip _ _
      (qrCode_not_prefix_pairing v₂ (',' :: (jsonStrField "session".toList v₃ ++ ['}'])))
    simp only [jsonOptField, List.nil_append, List.append_nil, List.append_assoc, List.cons_append,
      parseField_emit, expectLit_cons, hq, parseOptField_present]
  · simp only [jsonOptField, List.nil_append, List.append_nil, List.append_assoc, List.cons_append,
      parseField_emit, expectLit_cons, parseOptField_present,
      parseOptField_rbrace]
  · have hp2 := parseOptField_skip _ _ (pairing_not_prefix_session v₃ ['}'])
    simp only [jsonOptField, List.nil_append, List.append_nil, List.append_assoc, List.cons_append,
      parseField_emit, expectLit_cons, parseOptField_present, hp2]
  · simp only [jsonOptField, List.nil_append, List.append_nil, List.append_assoc, List.cons_append,
      parseField_emit, expectLit_cons, parseOptField_present,
      parseOptField_rbrace]
  · simp only [jsonOptField, List.nil_append, List.append_nil, List.append_assoc, List.cons_append,
      parseField_emit, expectLit_cons, parseOptField_present]

/-! ## C10: validatePhoneNumber -/

/-- C10: `validatePhoneNumber` performs exactly the transformation the
claim describes (digits of the input, a leading `0` replaced by `62`,
`62` prepended when at most 10 digits remain, `@c.us` appended); the
output always ends with `@c.us`; and the two distinct inputs
`0812345678` and `812345678` collide on the same JID. -/
theorem focksup_C10_validatePhoneNumber :
    (∀ s : Str, validatePhoneNumber s = claimedValidatePhoneNumber s) ∧
    (∀ s : Str, List.IsSuffix "@c.us".toList (validatePhoneNumber s)) ∧
    validatePhoneNumber "0812345678".toList = validatePhoneNumber "812345678".toList ∧
    "0812345678".toList ≠ "812345678".toList := by
  refine ⟨fun s => rfl, fun s => ⟨_, rfl⟩, by decide, by decide⟩

end Focksup
